import Mathlib

/-!
Verification of the coverage-gap extraction algorithm of
`.github/scripts/jacoco_test_generator.py` (function `find_coverage_gaps`,
lines 37-127), shallowly embedded in Lean 4.

The XML report tree handed to the function by `xml.etree.ElementTree` is
modelled as a simple rose tree of elements (tag, attributes, children).
The fallible `int(...)` conversions of counter attributes are modelled in
the `Except String` monad; the `try/except` wrapper of the source maps any
such failure, as well as a parse failure of the document itself, to the
empty result list.  Real-number arithmetic of the source (Python floats)
is modelled over `ℚ`.
-/

/-- Model of an `xml.etree.ElementTree.Element`: a tag, an attribute list
(`attrib`, keys unique in well-formed XML, looked up first-match), and the
ordered list of child elements. -/
inductive XMLElem : Type where
  | mk (tag : String) (attrs : List (String × String)) (children : List XMLElem)

/-- Tag of an element. -/
def XMLElem.tag : XMLElem → String
  | .mk t _ _ => t

/-- Attribute list of an element (models `elem.attrib`). -/
def XMLElem.attrs : XMLElem → List (String × String)
  | .mk _ a _ => a

/-- Children of an element. -/
def XMLElem.children : XMLElem → List XMLElem
  | .mk _ _ c => c

mutual
/-- All proper descendants of an element in document (preorder) order. -/
def descendants : XMLElem → List XMLElem
  | .mk _ _ cs => descendantsList cs
/-- All elements of a forest together with their proper descendants, in
document order. -/
def descendantsList : List XMLElem → List XMLElem
  | [] => []
  | c :: cs => c :: (descendants c ++ descendantsList cs)
end

/-- Model of `elem.findall(".//t")`: all descendants with tag `t`, in
document order. -/
def findallDesc (e : XMLElem) (t : String) : List XMLElem :=
  (descendants e).filter (fun c => c.tag == t)

/-- Model of `elem.findall("t")`: the direct children with tag `t`. -/
def findallChild (e : XMLElem) (t : String) : List XMLElem :=
  e.children.filter (fun c => c.tag == t)

/-- Model of `elem.attrib.get(k, d)` for a string default `d`. -/
def getAttrD (e : XMLElem) (k d : String) : String :=
  (e.attrs.lookup k).getD d

/-- Model of Python truthiness of `elem.attrib.get(k)`: `None` and the
empty string are falsy, any other string is truthy. -/
def pyTruthy : Option String → Bool
  | none => false
  | some s => !(s == "")

/-- Model of `s.replace('/', '.')` (single-character replacement). -/
def pyReplaceSlashDot (s : String) : String :=
  String.mk (s.toList.map (fun c => if c = '/' then '.' else c))

/-- Helper for the substring test: does the second list contain the first
as a contiguous infix? -/
def hasSubList (needle : List Char) : List Char → Bool
  | [] => needle.isEmpty
  | c :: cs => needle.isPrefixOf (c :: cs) || hasSubList needle cs

/-- Model of the Python membership test `sub in s` on strings:
case-sensitive contiguous substring containment. -/
def pyContains (s sub : String) : Bool :=
  hasSubList sub.toList s.toList

/-- Decimal-digit accumulator used by `pyInt`; `none` marks that no digit
has been consumed yet or that a non-digit character occurred. -/
def digitsVal : List Char → Option Nat → Option Nat
  | [], acc => acc
  | c :: cs, acc =>
    if c.isDigit then digitsVal cs (some ((acc.getD 0) * 10 + (c.toNat - '0'.toNat)))
    else none

/-- Model of Python `int(s)` on the attribute strings of a JaCoCo report:
an optional sign followed by at least one decimal digit parses to the
signed value; any other string raises `ValueError`, modelled as `.error`. -/
def pyInt (s : String) : Except String Int :=
  match s.toList with
  | '-' :: rest =>
    match digitsVal rest none with
    | some n => .ok (-(n : Int))
    | none => .error s
  | '+' :: rest =>
    match digitsVal rest none with
    | some n => .ok ((n : Int))
    | none => .error s
  | l =>
    match digitsVal l none with
    | some n => .ok ((n : Int))
    | none => .error s

/-- Model of `int(counter.attrib.get(k, 0))` (lines 87-88): an absent
attribute defaults to the integer `0`, a present one is parsed by
`int(...)`, which may raise. -/
def attrIntD (e : XMLElem) (k : String) : Except String Int :=
  match e.attrs.lookup k with
  | none => .ok 0
  | some s => pyInt s

/-- Model of `method.find("counter[@type='INSTRUCTION']")` (line 85): the
first direct child tagged `counter` whose `type` attribute equals
`INSTRUCTION`. -/
def findCounter (m : XMLElem) : Option XMLElem :=
  m.children.find? (fun c => c.tag == "counter" && c.attrs.lookup "type" == some "INSTRUCTION")

/-- One entry of the per-class `class_methods` list built at lines
98-103 of the source. -/
structure MethodGap where
  method : String
  coverage_percentage : ℚ
  missed_instructions : ℤ
  priority : ℤ
deriving DecidableEq, Repr

/-- One entry of the `coverage_gaps` result list built at lines 110-117
of the source (`class` key rendered as `class_name`). -/
structure CoverageGap where
  package : String
  class_name : String
  source_file : String
  methods : List MethodGap
  class_coverage : ℚ
  priority : ℤ
deriving DecidableEq, Repr

/-- The three per-class accumulators of the method loop (lines 71-73). -/
structure ClassAcc where
  total_class_methods : Nat
  covered_class_methods : Nat
  class_methods : List MethodGap
deriving DecidableEq, Repr

/-- Lines 89-90 of the source: `total = missed + covered`;
`coverage = 0 if total == 0 else (covered / total) * 100`. -/
def coveragePct (missed covered : ℤ) : ℚ :=
  if missed + covered = 0 then 0
  else ((covered : ℚ) / ((missed : ℚ) + (covered : ℚ))) * 100

/-- Line 108 of the source: the class-level coverage percentage
`0 if total_class_methods == 0 else (covered_class_methods / total_class_methods) * 100`. -/
def classCoverageCalc (covered total : Nat) : ℚ :=
  if total = 0 then 0 else ((covered : ℚ) / (total : ℚ)) * 100

/-- Body of the method loop (lines 75-103): skip constructors, count the
method, read its INSTRUCTION counter if present, update the covered count
and append a gap entry when the coverage is below the threshold. -/
def process_method (min_coverage : ℚ) (acc : ClassAcc) (m : XMLElem) : Except String ClassAcc :=
  if getAttrD m "name" "" = "<init>" then .ok acc
  else
    match findCounter m with
    | none => .ok { acc with total_class_methods := acc.total_class_methods + 1 }
    | some counter =>
      match attrIntD counter "missed", attrIntD counter "covered" with
      | .ok missed, .ok covered =>
        .ok { total_class_methods := acc.total_class_methods + 1,
              covered_class_methods :=
                if 0 < covered then acc.covered_class_methods + 1
                else acc.covered_class_methods,
              class_methods :=
                if coveragePct missed covered < min_coverage then
                  acc.class_methods ++
                    [{ method := getAttrD m "name" "",
                       coverage_percentage := coveragePct missed covered,
                       missed_instructions := missed,
                       priority := missed }]
                else acc.class_methods }
      | .error e, _ => .error e
      | _, .error e => .error e

/-- The method loop over `clazz.findall(".//method")`, threading the
per-class accumulators; the first `int(...)` failure aborts. -/
def process_methods (min_coverage : ℚ) (acc : ClassAcc) : List XMLElem → Except String ClassAcc
  | [] => .ok acc
  | m :: ms =>
    match process_method min_coverage acc m with
    | .ok acc2 => process_methods min_coverage acc2 ms
    | .error e => .error e

/-- Line 60 of the source: `clazz.attrib.get('name', '').replace('/', '.')`. -/
def classNameOf (clazz : XMLElem) : String :=
  pyReplaceSlashDot (getAttrD clazz "name" "")

/-- Line 57 of the source, for a package element. -/
def packageNameOf (pkg : XMLElem) : String :=
  pyReplaceSlashDot (getAttrD pkg "name" "")

/-- The methods scanned for a class: `clazz.findall(".//method")` (line 75). -/
def methodsOf (clazz : XMLElem) : List XMLElem :=
  findallDesc clazz "method"

/-- Body of the class loop (lines 59-117): skip classes whose name
contains `Test`, skip classes with a falsy `sourcefilename`, run the
method loop, and produce a `CoverageGap` when `class_methods` is
nonempty. -/
def process_class (min_coverage : ℚ) (package_name : String) (clazz : XMLElem) :
    Except String (Option CoverageGap) :=
  if pyContains (classNameOf clazz) "Test" then .ok none
  else
    match clazz.attrs.lookup "sourcefilename" with
    | none => .ok none
    | some source_file_name =>
      if source_file_name = "" then .ok none
      else
        match process_methods min_coverage ⟨0, 0, []⟩ (methodsOf clazz) with
        | .error e => .error e
        | .ok acc =>
          if acc.class_methods.isEmpty then .ok none
          else .ok (some
            { package := package_name,
              class_name := classNameOf clazz,
              source_file := source_file_name,
              methods := acc.class_methods,
              class_coverage :=
                classCoverageCalc acc.covered_class_methods acc.total_class_methods,
              priority := (acc.class_methods.map (fun g => g.missed_instructions)).sum })

/-- The class loop over `package.findall("class")`, appending each
produced gap to the running `coverage_gaps` list. -/
def process_classes (min_coverage : ℚ) (package_name : String) (acc : List CoverageGap) :
    List XMLElem → Except String (List CoverageGap)
  | [] => .ok acc
  | c :: cs =>
    match process_class min_coverage package_name c with
    | .error e => .error e
    | .ok none => process_classes min_coverage package_name acc cs
    | .ok (some g) => process_classes min_coverage package_name (acc ++ [g]) cs

/-- The package loop over `root.findall(".//package")` (line 56). -/
def process_packages (min_coverage : ℚ) (acc : List CoverageGap) :
    List XMLElem → Except String (List CoverageGap)
  | [] => .ok acc
  | p :: ps =>
    match process_classes min_coverage (packageNameOf p) acc (findallChild p "class") with
    | .error e => .error e
    | .ok acc2 => process_packages min_coverage acc2 ps

/-- The `coverage_gaps` list as it stands at line 118, before sorting. -/
def coverage_gaps_unsorted (root : XMLElem) (min_coverage : ℚ) :
    Except String (List CoverageGap) :=
  process_packages min_coverage [] (findallDesc root "package")

/-- Comparison used to model line 120,
`coverage_gaps.sort(key=lambda x: x['priority'], reverse=True)`:
a stable sort placing higher priorities first. -/
def gapLE (a b : CoverageGap) : Bool :=
  b.priority ≤ a.priority

/-- The try-block of `find_coverage_gaps` after the report has been
parsed (lines 52-121): walk the tree and stably sort the gaps by
descending priority. -/
def find_coverage_gaps_body (root : XMLElem) (min_coverage : ℚ) :
    Except String (List CoverageGap) :=
  match coverage_gaps_unsorted root min_coverage with
  | .ok gaps => .ok (gaps.mergeSort gapLE)
  | .error e => .error e

/-- Outcome of the file lookup and `ET.parse` stage (lines 42-53), which
is I/O: either no report file was found anywhere (early `return []`,
line 50), or the document was not well-formed XML (`ET.parse` raised), or
parsing produced a root element. -/
inductive ParseOutcome : Type where
  | fileMissing
  | parseFailure
  | parsed (root : XMLElem)

/-- The full `find_coverage_gaps` (lines 37-127): the `except` clause
catches every exception of the body and returns the empty list. -/
def find_coverage_gaps (input : ParseOutcome) (min_coverage : ℚ) : List CoverageGap :=
  match input with
  | .fileMissing => []
  | .parseFailure => []
  | .parsed root =>
    match find_coverage_gaps_body root min_coverage with
    | .ok gaps => gaps
    | .error _ => []

/-! ### Derived per-method values used to state properties -/

/-- Whether a method element is the constructor pseudo-method skipped at
line 79. -/
def isInitName (m : XMLElem) : Bool :=
  getAttrD m "name" "" = "<init>"

/-- Value of a successfully parsed counter attribute, `0` on error (only
used in contexts where the parse is known to have succeeded). -/
def exIntD : Except String Int → Int
  | .ok v => v
  | .error _ => 0

/-- Missed-instruction count of a method: `missed` of its INSTRUCTION
counter, `0` when no counter is present. -/
def methodMissedVal (m : XMLElem) : ℤ :=
  match findCounter m with
  | some c => exIntD (attrIntD c "missed")
  | none => 0

/-- Covered-instruction count of a method, analogously. -/
def methodCoveredVal (m : XMLElem) : ℤ :=
  match findCounter m with
  | some c => exIntD (attrIntD c "covered")
  | none => 0

/-- Coverage percentage the source derives for a method (lines 89-90). -/
def methodCoverageVal (m : XMLElem) : ℚ :=
  coveragePct (methodMissedVal m) (methodCoveredVal m)

/-- Whether a method contributes to `total_class_methods` (line 82): it
is counted exactly when it is not a constructor. -/
def countsTowardTotal (m : XMLElem) : Bool :=
  !(isInitName m)

/-- Whether a method contributes to `covered_class_methods` (lines
92-94): not a constructor, and its INSTRUCTION counter has
`covered > 0` (absent counter contributes nothing). -/
def countsAsCovered (m : XMLElem) : Bool :=
  !(isInitName m) && decide (0 < methodCoveredVal m)

/-- Whether a method qualifies as a coverage gap (lines 96-97): not a
constructor, an INSTRUCTION counter exists, and the derived coverage is
strictly below the threshold. -/
def methodQualifies (min_coverage : ℚ) (m : XMLElem) : Bool :=
  !(isInitName m) && (findCounter m).isSome && decide (methodCoverageVal m < min_coverage)

/-- The `class_methods` entry the source appends for a qualifying method
(lines 98-103). -/
def mkMethodGap (m : XMLElem) : MethodGap :=
  { method := getAttrD m "name" "",
    coverage_percentage := methodCoverageVal m,
    missed_instructions := methodMissedVal m,
    priority := methodMissedVal m }

/-- The gap produced for a class, `none` when the class is skipped or
produces no qualifying method; errors are absorbed to `none` (only used
in contexts where the computation is known to have succeeded). -/
def classGap (min_coverage : ℚ) (package_name : String) (c : XMLElem) : Option CoverageGap :=
  match process_class min_coverage package_name c with
  | .ok r => r
  | .error _ => none

/-! ### Characterization lemmas for the loops -/

theorem process_method_ok (t : ℚ) (acc acc2 : ClassAcc) (m : XMLElem)
    (h : process_method t acc m = .ok acc2) :
    acc2.total_class_methods
        = acc.total_class_methods + (if countsTowardTotal m then 1 else 0) ∧
    acc2.covered_class_methods
        = acc.covered_class_methods + (if countsAsCovered m then 1 else 0) ∧
    acc2.class_methods
        = acc.class_methods ++ (if methodQualifies t m then [mkMethodGap m] else []) := by
  by_cases hn : getAttrD m "name" "" = "<init>"
  · simp only [process_method, hn, if_pos, Except.ok.injEq] at h
    subst h
    simp [countsTowardTotal, countsAsCovered, methodQualifies, isInitName, hn]
  · rcases hc : findCounter m with _ | c
    · simp only [process_method, hn, if_neg, ite_false, hc, Except.ok.injEq] at h
      subst h
      simp [countsTowardTotal, countsAsCovered, methodQualifies, isInitName, hn,
        methodCoveredVal, hc]
    · rcases hm : attrIntD c "missed" with e | mv
      · simp [process_method, hn, hc, hm] at h
      · rcases hcv : attrIntD c "covered" with e | cv
        · simp [process_method, hn, hc, hm, hcv] at h
        · simp only [process_method, hn, if_neg, ite_false, hc, hm, hcv,
            Except.ok.injEq] at h
          subst h
          refine ⟨by simp [countsTowardTotal, isInitName, hn], ?_, ?_⟩
          · by_cases hpos : (0 : ℤ) < cv
            · simp [countsAsCovered, isInitName, hn, methodCoveredVal, hc, hcv, exIntD, hpos]
            · simp [countsAsCovered, isInitName, hn, methodCoveredVal, hc, hcv, exIntD, hpos]
          · by_cases hlt : coveragePct mv cv < t
            · simp [methodQualifies, isInitName, hn, methodCoverageVal, methodMissedVal,
                methodCoveredVal, hc, hm, hcv, exIntD, hlt, mkMethodGap]
            · simp [methodQualifies, isInitName, hn, methodCoverageVal, methodMissedVal,
                methodCoveredVal, hc, hm, hcv, exIntD, hlt]

theorem process_methods_ok (t : ℚ) :
    ∀ (ms : List XMLElem) (acc a : ClassAcc),
      process_methods t acc ms = .ok a →
      a.total_class_methods
          = acc.total_class_methods + ms.countP countsTowardTotal ∧
      a.covered_class_methods
          = acc.covered_class_methods + ms.countP countsAsCovered ∧
      a.class_methods
          = acc.class_methods ++ (ms.filter (methodQualifies t)).map mkMethodGap
  | [], acc, a, h => by
    simp only [process_methods, Except.ok.injEq] at h
    subst h
    simp
  | m :: ms, acc, a, h => by
    rcases hstep : process_method t acc m with e | acc2
    · simp [process_methods, hstep] at h
    · simp only [process_methods, hstep] at h
      obtain ⟨h1, h2, h3⟩ := process_methods_ok t ms acc2 a h
      obtain ⟨g1, g2, g3⟩ := process_method_ok t acc acc2 m hstep
      refine ⟨?_, ?_, ?_⟩
      · rw [h1, g1, List.countP_cons]
        omega
      · rw [h2, g2, List.countP_cons]
        omega
      · rw [h3, g3, List.filter_cons]
        by_cases hq : methodQualifies t m
        · simp [hq, List.append_assoc]
        · simp [hq]

theorem process_class_ok_char (t : ℚ) (pn : String) (clazz : XMLElem)
    (r : Option CoverageGap) (h : process_class t pn clazz = .ok r) :
    ((∃ g, r = some g) ↔
      (pyContains (classNameOf clazz) "Test" = false ∧
       pyTruthy (clazz.attrs.lookup "sourcefilename") = true ∧
       ∃ m ∈ methodsOf clazz, methodQualifies t m = true)) ∧
    (∀ g, r = some g →
      g.package = pn ∧
      g.class_name = classNameOf clazz ∧
      g.methods = ((methodsOf clazz).filter (methodQualifies t)).map mkMethodGap ∧
      g.class_coverage
        = classCoverageCalc ((methodsOf clazz).countP countsAsCovered)
            ((methodsOf clazz).countP countsTowardTotal) ∧
      g.priority = (g.methods.map (fun x => x.missed_instructions)).sum) := by
  by_cases htest : pyContains (classNameOf clazz) "Test"
  · simp only [process_class, htest, if_pos, Except.ok.injEq] at h
    subst h
    simp [htest]
  · rcases hsfn : clazz.attrs.lookup "sourcefilename" with _ | sfn
    · simp [process_class, htest, hsfn] at h
      subst h
      simp [hsfn, pyTruthy]
    · by_cases hempty : sfn = ""
      · simp [process_class, htest, hsfn, hempty] at h
        subst h
        simp [hsfn, hempty, pyTruthy]
      · rcases hrun : process_methods t ⟨0, 0, []⟩ (methodsOf clazz) with e | acc
        · simp [process_class, htest, hsfn, hempty, hrun] at h
        · obtain ⟨h1, h2, h3⟩ := process_methods_ok t (methodsOf clazz) ⟨0, 0, []⟩ acc hrun
          simp only at h1 h2 h3
          rw [Nat.zero_add] at h1 h2
          rw [List.nil_append] at h3
          by_cases hnil : acc.class_methods.isEmpty
          · simp [process_class, htest, hsfn, hempty, hrun, hnil] at h
            subst h
            rw [List.isEmpty_iff] at hnil
            rw [h3] at hnil
            constructor
            · constructor
              · rintro ⟨g, hg⟩
                exact Option.noConfusion hg
              · rintro ⟨-, -, m, hmem, hq⟩
                have : m ∈ (methodsOf clazz).filter (methodQualifies t) :=
                  List.mem_filter.mpr ⟨hmem, hq⟩
                rw [List.map_eq_nil_iff] at hnil
                rw [hnil] at this
                exact (List.not_mem_nil m this).elim
            · intro g hg
              exact Option.noConfusion hg
          · simp [process_class, htest, hsfn, hempty, hrun, hnil] at h
            subst h
            constructor
            · simp only [Option.some.injEq, exists_eq', true_iff]
              refine ⟨by simp [htest], by simp [pyTruthy, hsfn, hempty], ?_⟩
              rw [List.isEmpty_iff] at hnil
              rw [h3] at hnil
              rcases hfil : (methodsOf clazz).filter (methodQualifies t) with _ | ⟨m, rest⟩
              · rw [hfil] at hnil
                simp at hnil
              · have hm : m ∈ (methodsOf clazz).filter (methodQualifies t) := by
                  rw [hfil]
                  exact List.mem_cons_self m rest
                rw [List.mem_filter] at hm
                exact ⟨m, hm.1, hm.2⟩
            · intro g hg
              rw [Option.some.injEq] at hg
              subst hg
              exact ⟨rfl, rfl, h3, by rw [h1, h2], by rw [h3]⟩

theorem process_classes_ok (t : ℚ) (pn : String) :
    ∀ (cs : List XMLElem) (acc out : List CoverageGap),
      process_classes t pn acc cs = .ok out →
      (∀ c ∈ cs, ∃ r, process_class t pn c = .ok r) ∧
      out = acc ++ cs.filterMap (classGap t pn)
  | [], acc, out, h => by
    simp only [process_classes, Except.ok.injEq] at h
    subst h
    simp
  | c :: cs, acc, out, h => by
    rcases hc : process_class t pn c with e | r
    · simp [process_classes, hc] at h
    · have step :
          process_classes t pn (acc ++ (match r with | none => [] | some g => [g])) cs
            = .ok out := by
        rcases r with _ | g
        · simpa [process_classes, hc] using h
        · simpa [process_classes, hc] using h
      obtain ⟨hall, hout⟩ := process_classes_ok t pn cs _ out step
      refine ⟨?_, ?_⟩
      · intro d hd
        rcases List.mem_cons.mp hd with hdc | hdcs
        · subst hdc
          exact ⟨r, hc⟩
        · exact hall d hdcs
      · rw [hout, List.filterMap_cons]
        rcases r with _ | g
        · simp [classGap, hc]
        · simp [classGap, hc]

theorem process_packages_ok (t : ℚ) :
    ∀ (ps : List XMLElem) (acc out : List CoverageGap),
      process_packages t acc ps = .ok out →
      (∀ p ∈ ps, ∀ c ∈ findallChild p "class",
        ∃ r, process_class t (packageNameOf p) c = .ok r) ∧
      out = acc ++ ps.flatMap
        (fun p => (findallChild p "class").filterMap (classGap t (packageNameOf p)))
  | [], acc, out, h => by
    simp only [process_packages, Except.ok.injEq] at h
    subst h
    simp
  | p :: ps, acc, out, h => by
    rcases hp : process_classes t (packageNameOf p) acc (findallChild p "class") with e | acc2
    · simp [process_packages, hp] at h
    · simp only [process_packages, hp] at h
      obtain ⟨hall2, hout2⟩ := process_packages_ok t ps acc2 out h
      obtain ⟨hall1, hout1⟩ := process_classes_ok t (packageNameOf p) _ acc acc2 hp
      refine ⟨?_, ?_⟩
      · intro q hq c hc
        rcases List.mem_cons.mp hq with hqp | hqs
        · subst hqp
          exact hall1 c hc
        · exact hall2 q hqs c hc
      · rw [hout2, hout1, List.flatMap_cons, List.append_assoc]

theorem body_eq_of_unsorted_ok {root : XMLElem} {t : ℚ} {l : List CoverageGap}
    (h : coverage_gaps_unsorted root t = .ok l) :
    find_coverage_gaps_body root t = .ok (l.mergeSort gapLE) := by
  simp [find_coverage_gaps_body, h]

theorem find_eq_of_body_ok {root : XMLElem} {t : ℚ} {l : List CoverageGap}
    (h : find_coverage_gaps_body root t = .ok l) :
    find_coverage_gaps (.parsed root) t = l := by
  simp [find_coverage_gaps, h]

theorem gapLE_trans : ∀ (a b c : CoverageGap), gapLE a b → gapLE b c → gapLE a c := by
  intro a b c hab hbc
  simp only [gapLE, decide_eq_true_eq] at hab hbc ⊢
  exact le_trans hbc hab

theorem gapLE_total : ∀ (a b : CoverageGap), gapLE a b || gapLE b a := by
  intro a b
  simp only [gapLE, Bool.or_eq_true, decide_eq_true_eq]
  exact le_total b.priority a.priority

theorem mem_unsorted_of_classGap {root : XMLElem} {t : ℚ} {l : List CoverageGap}
    (h : coverage_gaps_unsorted root t = .ok l)
    {p c : XMLElem} (hp : p ∈ findallDesc root "package")
    (hc : c ∈ findallChild p "class")
    {g : CoverageGap} (hg : classGap t (packageNameOf p) c = some g) :
    g ∈ l := by
  obtain ⟨-, hout⟩ := process_packages_ok t (findallDesc root "package") [] l h
  rw [hout]
  simp only [List.nil_append, List.mem_flatMap]
  exact ⟨p, hp, List.mem_filterMap.mpr ⟨c, hc, hg⟩⟩

/-! ### Concrete report trees used in the examples and counterexamples -/

/-- An INSTRUCTION counter element with the given attribute strings. -/
def counterElem (missed covered : String) : XMLElem :=
  .mk "counter" [("type", "INSTRUCTION"), ("missed", missed), ("covered", covered)] []

/-- A method element with one INSTRUCTION counter. -/
def methodElem (name missed covered : String) : XMLElem :=
  .mk "method" [("name", name), ("desc", "()V")] [counterElem missed covered]

/-- The method `bar` of the end-to-end example: missed=8, covered=2. -/
def fooBarMethod : XMLElem := methodElem "bar" "8" "2"

/-- The method `baz` of the end-to-end example: missed=0, covered=10. -/
def fooBazMethod : XMLElem := methodElem "baz" "0" "10"

/-- The class `com.example.Foo` of the end-to-end example. -/
def fooClassElem : XMLElem :=
  .mk "class" [("name", "com/example/Foo"), ("sourcefilename", "Foo.java")]
    [fooBarMethod, fooBazMethod]

/-- The package `com.example` of the end-to-end example. -/
def examplePackage : XMLElem :=
  .mk "package" [("name", "com/example")] [fooClassElem]

/-- The end-to-end example report of the specification. -/
def exampleReport : XMLElem :=
  .mk "report" [("name", "example")] [examplePackage]

/-- The gap the code actually produces for the end-to-end example:
only `bar` qualifies, but both methods have `covered > 0`, so the
class-level coverage is 100, not 50. -/
def fooGap : CoverageGap :=
  { package := "com.example", class_name := "com.example.Foo", source_file := "Foo.java",
    methods := [{ method := "bar", coverage_percentage := 20,
                  missed_instructions := 8, priority := 8 }],
    class_coverage := 100, priority := 8 }

/-- A report whose root is tagged `report` but which contains no
`package` element at all. -/
def zeroPackageReport : XMLElem :=
  .mk "report" [("name", "empty")] []

/-- A document whose root is not tagged `report` yet contains the
example package. -/
def wrongRootReport : XMLElem :=
  .mk "data" [("name", "w")] [examplePackage]

theorem unsorted_single_example_package (root : XMLElem)
    (h : findallDesc root "package" = [examplePackage]) :
    coverage_gaps_unsorted root 80 = .ok [fooGap] := by
  rw [coverage_gaps_unsorted, h]
  simp [process_packages, process_classes, process_class, process_methods, process_method,
    methodsOf, findallDesc, findallChild, descendants, descendantsList, packageNameOf,
    classNameOf, pyReplaceSlashDot, pyContains, hasSubList, getAttrD, findCounter,
    attrIntD, pyInt, digitsVal, coveragePct, classCoverageCalc, XMLElem.tag, XMLElem.attrs,
    XMLElem.children, examplePackage, fooClassElem, fooBarMethod, fooBazMethod,
    counterElem, methodElem, fooGap, List.lookup, List.isPrefixOf, List.filter]
  norm_num

theorem example_report_eval :
    find_coverage_gaps (.parsed exampleReport) 80 = [fooGap] := by
  have h := unsorted_single_example_package exampleReport rfl
  have hb := body_eq_of_unsorted_ok h
  rw [List.mergeSort_singleton] at hb
  exact find_eq_of_body_ok hb

/-- C1 (amended): on the end-to-end example report, `find_coverage_gaps`
with threshold 80 returns exactly one gap for `com.example.Foo` with
qualifying-method list `[bar]` (coverage 20, missed 8, priority 8) and
class priority 8, but its `class_coverage` is 100, not 50: both `bar` and
`baz` have `covered > 0`, so both count as covered methods. -/
theorem example_report_output :
    find_coverage_gaps (.parsed exampleReport) 80 =
      [{ package := "com.example", class_name := "com.example.Foo",
         source_file := "Foo.java",
         methods := [{ method := "bar", coverage_percentage := 20,
                       missed_instructions := 8, priority := 8 }],
         class_coverage := 100, priority := 8 }] :=
  example_report_eval

/-- C1 counterexample: the claimed output, whose `class_coverage` is 50,
is not what the code returns on the example report. -/
theorem example_report_spec_value_counterexample :
    find_coverage_gaps (.parsed exampleReport) 80 ≠
      [{ package := "com.example", class_name := "com.example.Foo",
         source_file := "Foo.java",
         methods := [{ method := "bar", coverage_percentage := 20,
                       missed_instructions := 8, priority := 8 }],
         class_coverage := 50, priority := 8 }] := by
  rw [example_report_eval]
  norm_num [fooGap]

/-- C3 (amended): `find_coverage_gaps` performs no schema validation and
surfaces no error value: an ill-formed document (caught `ParseError`)
yields the empty list, and a parsed report without any `package`
descendant yields the empty list by normal control flow, whatever its
root tag is. -/
theorem no_schema_validation (t : ℚ) (root : XMLElem) :
    find_coverage_gaps .parseFailure t = [] ∧
    (findallDesc root "package" = [] → find_coverage_gaps (.parsed root) t = []) := by
  constructor
  · rfl
  · intro h
    have hu : coverage_gaps_unsorted root t = .ok [] := by
      rw [coverage_gaps_unsorted, h]
      rfl
    have hb := body_eq_of_unsorted_ok hu
    rw [List.mergeSort_nil] at hb
    exact find_eq_of_body_ok hb

/-- Witness for C3 at the concrete zero-package report. -/
theorem no_schema_validation_witness :
    find_coverage_gaps .parseFailure 80 = [] ∧
    find_coverage_gaps (.parsed zeroPackageReport) 80 = [] :=
  ⟨(no_schema_validation 80 zeroPackageReport).1,
   (no_schema_validation 80 zeroPackageReport).2 rfl⟩

/-- C3 counterexample: a report with zero `package` elements produces a
normal `.ok []` return (no `MalformedReportError` exists anywhere in the
code), and a document whose root tag is not `report` is processed
normally, even returning a nonempty result. -/
theorem schema_error_counterexample :
    find_coverage_gaps_body zeroPackageReport 80 = .ok [] ∧
    find_coverage_gaps_body wrongRootReport 80 = .ok [fooGap] := by
  constructor
  · have hu : coverage_gaps_unsorted zeroPackageReport 80 = .ok [] := rfl
    have hb := body_eq_of_unsorted_ok hu
    rw [List.mergeSort_nil] at hb
    exact hb
  · have h := unsorted_single_example_package wrongRootReport rfl
    have hb := body_eq_of_unsorted_ok h
    rw [List.mergeSort_singleton] at hb
    exact hb

/-- C2: the class-level ratio counts a non-constructor method in the
numerator exactly when its INSTRUCTION counter has `covered > 0`
(`countsAsCovered`), and in the denominator exactly when it is not a
constructor (`countsTowardTotal`); neither count depends on the
threshold. -/
theorem covered_count_characterization
    (ms : List XMLElem) (t₁ t₂ : ℚ) (a₁ a₂ : ClassAcc)
    (h₁ : process_methods t₁ ⟨0, 0, []⟩ ms = .ok a₁)
    (h₂ : process_methods t₂ ⟨0, 0, []⟩ ms = .ok a₂) :
    a₁.covered_class_methods = ms.countP countsAsCovered ∧
    a₁.total_class_methods = ms.countP countsTowardTotal ∧
    a₁.covered_class_methods = a₂.covered_class_methods ∧
    a₁.total_class_methods = a₂.total_class_methods := by
  obtain ⟨g1, g2, -⟩ := process_methods_ok t₁ ms ⟨0, 0, []⟩ a₁ h₁
  obtain ⟨f1, f2, -⟩ := process_methods_ok t₂ ms ⟨0, 0, []⟩ a₂ h₂
  simp only at g1 g2 f1 f2
  rw [Nat.zero_add] at g1 g2 f1 f2
  exact ⟨g2, g1, by rw [g2, f2], by rw [g1, f1]⟩

/-- Witness for C2 on the example methods at thresholds 10 and 80. -/
theorem covered_count_characterization_witness :
    (⟨2, 2, ([] : List MethodGap)⟩ : ClassAcc).covered_class_methods
        = [fooBarMethod, fooBazMethod].countP countsAsCovered ∧
    (⟨2, 2, ([] : List MethodGap)⟩ : ClassAcc).total_class_methods
        = [fooBarMethod, fooBazMethod].countP countsTowardTotal ∧
    (⟨2, 2, ([] : List MethodGap)⟩ : ClassAcc).covered_class_methods
        = (⟨2, 2, [⟨"bar", 20, 8, 8⟩]⟩ : ClassAcc).covered_class_methods ∧
    (⟨2, 2, ([] : List MethodGap)⟩ : ClassAcc).total_class_methods
        = (⟨2, 2, [⟨"bar", 20, 8, 8⟩]⟩ : ClassAcc).total_class_methods := by
  have h₁ : process_methods 10 ⟨0, 0, []⟩ [fooBarMethod, fooBazMethod]
      = .ok ⟨2, 2, []⟩ := by
    simp [process_methods, process_method, fooBarMethod, fooBazMethod, methodElem,
      counterElem, getAttrD, findCounter, attrIntD, pyInt, digitsVal, coveragePct,
      XMLElem.tag, XMLElem.attrs, XMLElem.children, List.lookup]
    norm_num
  have h₂ : process_methods 80 ⟨0, 0, []⟩ [fooBarMethod, fooBazMethod]
      = .ok ⟨2, 2, [⟨"bar", 20, 8, 8⟩]⟩ := by
    simp [process_methods, process_method, fooBarMethod, fooBazMethod, methodElem,
      counterElem, getAttrD, findCounter, attrIntD, pyInt, digitsVal, coveragePct,
      XMLElem.tag, XMLElem.attrs, XMLElem.children, List.lookup]
    norm_num
  exact covered_count_characterization [fooBarMethod, fooBazMethod] 10 80 _ _ h₁ h₂

/-- C6: the derived method coverage always equals
`covered / (missed + covered) * 100` (in exact rational arithmetic the
zero-total branch agrees with the formula, division by zero being zero),
and in particular it is exactly 0 whenever `missed + covered = 0`. -/
theorem coverage_percentage_formula (missed covered : ℤ) :
    coveragePct missed covered
        = ((covered : ℚ) / ((missed : ℚ) + (covered : ℚ))) * 100 ∧
    (missed + covered = 0 → coveragePct missed covered = 0) := by
  by_cases h : missed + covered = 0
  · have hq : (missed : ℚ) + (covered : ℚ) = 0 := by
      exact_mod_cast h
    rw [coveragePct, if_pos h, hq]
    simp
  · rw [coveragePct, if_neg h]
    exact ⟨rfl, fun hc => absurd hc h⟩

/-- Witness for C6 at the zero-instruction counter (0, 0). -/
theorem coverage_percentage_formula_witness :
    coveragePct 0 0 = 0 :=
  (coverage_percentage_formula 0 0).2 (by decide)

/-- C7: raising the threshold can only enlarge the qualifying set: for
`t₁ ≤ t₂` the methods qualifying at `t₁` form a sublist (hence a subset,
of no greater length) of those qualifying at `t₂`, and the per-class gap
output at `t₁` lists a sublist of the methods listed at `t₂`. -/
theorem qualifying_methods_monotone (t₁ t₂ : ℚ) (h : t₁ ≤ t₂) :
    (∀ ms : List XMLElem,
      List.Sublist (ms.filter (methodQualifies t₁)) (ms.filter (methodQualifies t₂))) ∧
    (∀ (pn : String) (clazz : XMLElem) (g₁ g₂ : CoverageGap),
      process_class t₁ pn clazz = .ok (some g₁) →
      process_class t₂ pn clazz = .ok (some g₂) →
      List.Sublist g₁.methods g₂.methods) := by
  have hmono : ∀ m : XMLElem, methodQualifies t₁ m → methodQualifies t₂ m := by
    intro m hm
    simp only [methodQualifies, Bool.and_eq_true, decide_eq_true_eq] at hm ⊢
    exact ⟨hm.1, lt_of_lt_of_le hm.2 h⟩
  refine ⟨fun ms => List.monotone_filter_right ms hmono, ?_⟩
  intro pn clazz g₁ g₂ h₁ h₂
  obtain ⟨-, hchar₁⟩ := process_class_ok_char t₁ pn clazz (some g₁) h₁
  obtain ⟨-, hchar₂⟩ := process_class_ok_char t₂ pn clazz (some g₂) h₂
  obtain ⟨-, -, hm₁, -, -⟩ := hchar₁ g₁ rfl
  obtain ⟨-, -, hm₂, -, -⟩ := hchar₂ g₂ rfl
  rw [hm₁, hm₂]
  exact (List.monotone_filter_right (methodsOf clazz) hmono).map mkMethodGap

/-- Witness for C7 on the example methods at thresholds 50 and 80. -/
theorem qualifying_methods_monotone_witness :
    List.Sublist ([fooBarMethod, fooBazMethod].filter (methodQualifies 50))
      ([fooBarMethod, fooBazMethod].filter (methodQualifies 80)) :=
  (qualifying_methods_monotone 50 80 (by norm_num)).1 [fooBarMethod, fooBazMethod]

/-- C8: the analysis is a pure function of the parsed input tree and the
threshold: two invocations on the same input yield identical ordered
output. -/
theorem find_coverage_gaps_deterministic (input : ParseOutcome) (t : ℚ) :
    find_coverage_gaps input t = find_coverage_gaps input t :=
  rfl

/-- C9: no exception reaches the caller: whenever the body fails (parse
failure of the document, or any internal failure such as a non-numeric
counter attribute), `find_coverage_gaps` returns the empty list, and
every result is either the empty list or the successful body value. -/
theorem find_coverage_gaps_never_raises (input : ParseOutcome) (t : ℚ) :
    (∀ root e, input = .parsed root → find_coverage_gaps_body root t = .error e →
      find_coverage_gaps input t = []) ∧
    (find_coverage_gaps input t = [] ∨
      ∃ root, input = .parsed root ∧
        find_coverage_gaps_body root t = .ok (find_coverage_gaps input t)) := by
  constructor
  · intro root e hin hb
    subst hin
    simp [find_coverage_gaps, hb]
  · cases input with
    | fileMissing => exact Or.inl rfl
    | parseFailure => exact Or.inl rfl
    | parsed root =>
      rcases hb : find_coverage_gaps_body root t with e | l
      · exact Or.inl (by simp [find_coverage_gaps, hb])
      · exact Or.inr ⟨root, rfl, by rw [find_eq_of_body_ok hb]; exact hb⟩

/-- C4: the returned sequence is the input gap list stably sorted by
descending priority: it is pairwise ordered by `priority`, a permutation
of the unsorted list, and any two entries with equal priority keep their
relative (encounter) order. -/
theorem output_sorted_by_priority_stable (root : XMLElem) (t : ℚ) (l : List CoverageGap)
    (h : coverage_gaps_unsorted root t = .ok l) :
    List.Pairwise (fun a b => b.priority ≤ a.priority)
      (find_coverage_gaps (.parsed root) t) ∧
    List.Perm (find_coverage_gaps (.parsed root) t) l ∧
    (∀ a b, List.Sublist [a, b] l → a.priority = b.priority →
      List.Sublist [a, b] (find_coverage_gaps (.parsed root) t)) := by
  have hb := body_eq_of_unsorted_ok h
  rw [find_eq_of_body_ok hb]
  refine ⟨?_, ?_, ?_⟩
  · have hs := List.sorted_mergeSort gapLE_trans gapLE_total l
    exact hs.imp (fun hab => by simpa [gapLE] using hab)
  · exact List.mergeSort_perm l gapLE
  · intro a b hsub heq
    refine List.pair_sublist_mergeSort gapLE_trans gapLE_total ?_ hsub
    simp [gapLE, heq]

/-- The class `p.Alpha` used in the stability witness. -/
def alphaClassElem : XMLElem :=
  .mk "class" [("name", "p/Alpha"), ("sourcefilename", "Alpha.java")] [methodElem "ma" "5" "0"]

/-- The class `p.Beta` used in the stability witness. -/
def betaClassElem : XMLElem :=
  .mk "class" [("name", "p/Beta"), ("sourcefilename", "Beta.java")] [methodElem "mb" "5" "0"]

/-- A report with two classes of equal priority 5, Alpha before Beta. -/
def twoClassReport : XMLElem :=
  .mk "report" [("name", "two")]
    [.mk "package" [("name", "p")] [alphaClassElem, betaClassElem]]

/-- The gap produced for `p.Alpha`. -/
def alphaGap : CoverageGap :=
  { package := "p", class_name := "p.Alpha", source_file := "Alpha.java",
    methods := [{ method := "ma", coverage_percentage := 0,
                  missed_instructions := 5, priority := 5 }],
    class_coverage := 0, priority := 5 }

/-- The gap produced for `p.Beta`. -/
def betaGap : CoverageGap :=
  { package := "p", class_name := "p.Beta", source_file := "Beta.java",
    methods := [{ method := "mb", coverage_percentage := 0,
                  missed_instructions := 5, priority := 5 }],
    class_coverage := 0, priority := 5 }

theorem two_class_unsorted_eval :
    coverage_gaps_unsorted twoClassReport 80 = .ok [alphaGap, betaGap] := by
  rw [coverage_gaps_unsorted]
  simp [process_packages, process_classes, process_class, process_methods, process_method,
    methodsOf, findallDesc, findallChild, descendants, descendantsList, packageNameOf,
    classNameOf, pyReplaceSlashDot, pyContains, hasSubList, getAttrD, findCounter,
    attrIntD, pyInt, digitsVal, coveragePct, classCoverageCalc, XMLElem.tag, XMLElem.attrs,
    XMLElem.children, twoClassReport, alphaClassElem, betaClassElem, counterElem,
    methodElem, alphaGap, betaGap, List.lookup, List.isPrefixOf, List.filter]

/-- Witness for C4: the two equal-priority classes of `twoClassReport`
keep their encounter order (Alpha before Beta) in the sorted output. -/
theorem output_sorted_by_priority_stable_witness :
    List.Sublist [alphaGap, betaGap] (find_coverage_gaps (.parsed twoClassReport) 80) :=
  (output_sorted_by_priority_stable twoClassReport 80 [alphaGap, betaGap]
      two_class_unsorted_eval).2.2 alphaGap betaGap
    (List.Sublist.refl [alphaGap, betaGap]) rfl

/-- C5 (amended): a processed class contributes a gap to the output if
and only if its dotted name does not contain the substring `Test`, its
`sourcefilename` attribute is present and nonempty (Python truthiness:
an empty-string attribute is skipped exactly like an absent one), and at
least one of its non-constructor methods has an INSTRUCTION counter with
coverage below the threshold. -/
theorem class_inclusion_iff (root : XMLElem) (t : ℚ) (l : List CoverageGap)
    (h : coverage_gaps_unsorted root t = .ok l)
    (pkg : XMLElem) (hp : pkg ∈ findallDesc root "package")
    (clazz : XMLElem) (hc : clazz ∈ findallChild pkg "class") :
    (∃ g, classGap t (packageNameOf pkg) clazz = some g ∧
        g ∈ find_coverage_gaps (.parsed root) t) ↔
      (pyContains (classNameOf clazz) "Test" = false ∧
       pyTruthy (clazz.attrs.lookup "sourcefilename") = true ∧
       ∃ m ∈ methodsOf clazz, methodQualifies t m = true) := by
  obtain ⟨hall, -⟩ := process_packages_ok t (findallDesc root "package") [] l h
  obtain ⟨r, hr⟩ := hall pkg hp clazz hc
  obtain ⟨hiff, -⟩ := process_class_ok_char t (packageNameOf pkg) clazz r hr
  have hcg : classGap t (packageNameOf pkg) clazz = r := by
    simp [classGap, hr]
  constructor
  · rintro ⟨g, hg, -⟩
    refine hiff.mp ⟨g, ?_⟩
    rw [← hcg]
    exact hg
  · intro hcond
    obtain ⟨g, hg⟩ := hiff.mpr hcond
    refine ⟨g, by rw [hcg, hg], ?_⟩
    have hmem : g ∈ l := mem_unsorted_of_classGap h hp hc (by rw [hcg, hg])
    have hb := body_eq_of_unsorted_ok h
    rw [find_eq_of_body_ok hb]
    exact List.mem_mergeSort.mpr hmem

/-- Witness for C5 on the example report: `com.example.Foo` satisfies all
three conditions and indeed contributes a gap to the output. -/
theorem class_inclusion_iff_witness :
    ∃ g, classGap 80 (packageNameOf examplePackage) fooClassElem = some g ∧
      g ∈ find_coverage_gaps (.parsed exampleReport) 80 := by
  have h := unsorted_single_example_package exampleReport rfl
  refine (class_inclusion_iff exampleReport 80 [fooGap] h examplePackage
      (List.Mem.head _) fooClassElem (List.Mem.head _)).mpr ?_
  refine ⟨rfl, rfl, fooBarMethod, List.Mem.head _, ?_⟩
  simp [methodQualifies, isInitName, getAttrD, findCounter, methodCoverageVal,
    methodMissedVal, methodCoveredVal, attrIntD, pyInt, digitsVal, exIntD, coveragePct,
    fooBarMethod, methodElem, counterElem, XMLElem.tag, XMLElem.attrs, XMLElem.children,
    List.lookup]
  norm_num

/-- The method of the empty-`sourcefilename` counterexample class:
missed=7, covered=0, so it is below any positive threshold. -/
def bareMethod : XMLElem := methodElem "run" "7" "0"

/-- A class that has a `sourcefilename` attribute, but with the empty
string as its value. -/
def bareClassElem : XMLElem :=
  .mk "class" [("name", "com/example/Bare"), ("sourcefilename", "")] [bareMethod]

/-- A report containing only `bareClassElem`. -/
def bareReport : XMLElem :=
  .mk "report" [("name", "bare")]
    [.mk "package" [("name", "com/example")] [bareClassElem]]

/-- C5 counterexample: `com.example.Bare` has a `sourcefilename`
attribute, its name does not contain `Test`, and it has a qualifying
method, yet the output is empty, because the attribute's value is the
empty string and Python's `if not source_file_name` skips it. -/
theorem empty_sourcefilename_counterexample :
    find_coverage_gaps (.parsed bareReport) 80 = [] ∧
    (bareClassElem.attrs.lookup "sourcefilename").isSome = true ∧
    pyContains (classNameOf bareClassElem) "Test" = false ∧
    bareMethod ∈ methodsOf bareClassElem ∧
    methodQualifies 80 bareMethod = true := by
  refine ⟨?_, rfl, rfl, List.Mem.head _, ?_⟩
  · have hu : coverage_gaps_unsorted bareReport 80 = .ok [] := rfl
    have hb := body_eq_of_unsorted_ok hu
    rw [List.mergeSort_nil] at hb
    exact find_eq_of_body_ok hb
  · simp [methodQualifies, isInitName, getAttrD, findCounter, methodCoverageVal,
      methodMissedVal, methodCoveredVal, attrIntD, pyInt, digitsVal, exIntD, coveragePct,
      bareMethod, methodElem, counterElem, XMLElem.tag, XMLElem.attrs, XMLElem.children,
      List.lookup]

/-- C10 (amended): a non-constructor method whose INSTRUCTION counter
parses to `missed = 0` and `covered = 0` (which includes counters whose
`missed`/`covered` attributes are absent, as they default to 0) gets
coverage 0, is not counted as covered, qualifies whenever the threshold
is positive, and is then appended to the class's gap list with priority
0 while still enlarging the method total. -/
theorem zero_instruction_method_behavior (t : ℚ) (acc : ClassAcc) (m c : XMLElem)
    (hni : isInitName m = false)
    (hc : findCounter m = some c)
    (hm : attrIntD c "missed" = .ok 0)
    (hcv : attrIntD c "covered" = .ok 0) :
    methodCoverageVal m = 0 ∧
    countsAsCovered m = false ∧
    (0 < t → methodQualifies t m = true) ∧
    (0 < t → process_method t acc m = .ok
      { total_class_methods := acc.total_class_methods + 1,
        covered_class_methods := acc.covered_class_methods,
        class_methods := acc.class_methods ++
          [{ method := getAttrD m "name" "", coverage_percentage := 0,
             missed_instructions := 0, priority := 0 }] }) := by
  have hname : ¬(getAttrD m "name" "" = "<init>") := by
    simpa [isInitName] using hni
  have hcov : methodCoverageVal m = 0 := by
    simp [methodCoverageVal, methodMissedVal, methodCoveredVal, hc, hm, hcv, exIntD,
      coveragePct]
  refine ⟨hcov, ?_, ?_, ?_⟩
  · simp [countsAsCovered, methodCoveredVal, hc, hcv, exIntD, isInitName, hname]
  · intro ht
    simp [methodQualifies, isInitName, hname, hc, hcov, ht]
  · intro ht
    have hlt : coveragePct 0 0 < t := by
      simpa [coveragePct] using ht
    simp [process_method, hname, hc, hm, hcv, hlt, coveragePct]
    exact ht

/-- A method whose INSTRUCTION counter carries no `missed`/`covered`
attributes at all; both default to 0. -/
def noAttrCounterMethod : XMLElem :=
  .mk "method" [("name", "noop")] [.mk "counter" [("type", "INSTRUCTION")] []]

/-- Witness for C10 on a counter with absent attributes, threshold 80. -/
theorem zero_instruction_method_behavior_witness :
    methodCoverageVal noAttrCounterMethod = 0 ∧
    countsAsCovered noAttrCounterMethod = false ∧
    methodQualifies 80 noAttrCounterMethod = true ∧
    process_method 80 ⟨0, 0, []⟩ noAttrCounterMethod
      = .ok ⟨1, 0, [{ method := "noop", coverage_percentage := 0,
                      missed_instructions := 0, priority := 0 }]⟩ := by
  obtain ⟨h1, h2, h3, h4⟩ := zero_instruction_method_behavior 80 ⟨0, 0, []⟩
    noAttrCounterMethod (.mk "counter" [("type", "INSTRUCTION")] []) rfl rfl rfl rfl
  exact ⟨h1, h2, h3 (by norm_num), h4 (by norm_num)⟩

/-- A method whose counter has `missed = -5`, `covered = 5`: the two
attribute values also sum to zero. -/
def negCounterMethod : XMLElem := methodElem "neg" "-5" "5"

/-- C10 counterexample: for this non-constructor method the counter sums
to zero (`missed + covered = 0`), yet the code counts it as covered
(`covered > 0`) and appends it with priority `-5`, not 0 - so the claim's
condition `missed + covered = 0` is too weak; it holds only for
`missed = 0` and `covered = 0` separately. -/
theorem negative_counter_counterexample :
    methodMissedVal negCounterMethod + methodCoveredVal negCounterMethod = 0 ∧
    countsAsCovered negCounterMethod = true ∧
    (mkMethodGap negCounterMethod).priority = -5 ∧
    process_method 80 ⟨0, 0, []⟩ negCounterMethod
      = .ok ⟨1, 1, [{ method := "neg", coverage_percentage := 0,
                      missed_instructions := -5, priority := -5 }]⟩ := by
  refine ⟨rfl, rfl, rfl, ?_⟩
  simp [process_method, negCounterMethod, methodElem, counterElem, getAttrD, findCounter,
    attrIntD, pyInt, digitsVal, coveragePct, XMLElem.tag, XMLElem.attrs, XMLElem.children,
    List.lookup]

/-- A report whose counter carries a non-numeric `missed` attribute, so
`int(...)` raises inside the loop; the wrapper turns this into `[]`. -/
def badAttrReport : XMLElem :=
  .mk "report" [("name", "bad")]
    [.mk "package" [("name", "q")]
      [.mk "class" [("name", "q/Bad"), ("sourcefilename", "Bad.java")]
        [methodElem "frob" "oops" "1"]]]

/-- Witness for C9: the internal `ValueError` on the attribute string
`oops` is caught and the function returns the empty list. -/
theorem find_coverage_gaps_never_raises_witness :
    find_coverage_gaps (.parsed badAttrReport) 80 = [] :=
  (find_coverage_gaps_never_raises (.parsed badAttrReport) 80).1 badAttrReport "oops"
    rfl rfl
